import Mathlib

/-!
Shallow embedding of the command interpreter in `src/src/main.rs`.

Strings are modelled as `List Char` (the Rust code only ever treats them as
character sequences: `split`, `trim`, `join`, prefix stripping, equality).
`str` converts a Lean string literal to that representation.

The ambient world a run touches (the `PATH` variable, the filesystem seen by
`fs::read_dir`, and child-process execution) is an explicit `Env` record.
Rust panics (`expect`, `unwrap`) are modelled by the `fatal` constructor of
`RRes`, distinct from the recoverable `Err(String)` channel (`err`).
-/

namespace Shell

def str (s : String) : List Char := s.data

/-- Rust `str::split` on a one-character pattern: keeps empty fragments, and
splitting the empty string yields one empty fragment. -/
def splitOnSep (c : Char) : List Char → List (List Char)
  | [] => [[]]
  | x :: xs =>
    if x = c then [] :: splitOnSep c xs
    else
      match splitOnSep c xs with
      | [] => [[x]]
      | h :: t => (x :: h) :: t

/-- Rust `[&str]::join(" ")` (specialised to a one-character separator). -/
def joinSep (c : Char) : List (List Char) → List Char
  | [] => []
  | [a] => a
  | a :: b :: t => a ++ c :: joinSep c (b :: t)

/-- Rust `str::trim`: strip leading and trailing whitespace. -/
def trim (s : List Char) : List Char :=
  ((s.dropWhile Char.isWhitespace).reverse.dropWhile Char.isWhitespace).reverse

/-- Accumulate a decimal value over a digit run; `none` on a non-digit. -/
def digitsValAux (acc : Nat) : List Char → Option Nat
  | [] => some acc
  | c :: cs => if c.isDigit then digitsValAux (acc * 10 + (c.toNat - 48)) cs else none

/-- Value of a non-empty all-digit string, else `none`. -/
def digitsVal : List Char → Option Nat
  | [] => none
  | c :: cs => digitsValAux 0 (c :: cs)

/-- Rust `str::parse::<i32>`: optional sign, at least one digit, nothing else,
and the value must fit in `i32`. -/
def parseI32 (s : List Char) : Option Int :=
  let core : Option Int :=
    match s with
    | '+' :: rest => (digitsVal rest).map Int.ofNat
    | '-' :: rest => (digitsVal rest).map (fun n => -(n : Int))
    | _ => (digitsVal s).map Int.ofNat
  match core with
  | some n => if -(2 ^ 31) ≤ n ∧ n < 2 ^ 31 then some n else none
  | none => none

/-- Rust `str::strip_prefix`: drop `p` from the front of `s` when it is a
prefix, else `none`. -/
def removeLeading : List Char → List Char → Option (List Char)
  | [], s => some s
  | _ :: _, [] => none
  | p :: ps, c :: cs => if p = c then removeLeading ps cs else none

/-- One external-process run as observed by the shell: either the spawn itself
failed (`io::Error`, rendered by Rust's `{}` formatting), or the child
finished with a success flag and captured stdout/stderr byte streams.
`none` for a stream means its bytes are not valid UTF-8, so decoding it
panics. -/
inductive ExecOut where
  | spawnErr (msg : List Char)
  | done (success : Bool) (outStream : Option (List Char)) (errStream : Option (List Char))

/-- The ambient world: the `PATH` variable (absent or a value), the directory
listings `fs::read_dir` would see (in filesystem enumeration order; a
directory absent from the list cannot be read and `read_dir` fails), and
child-process execution keyed by resolved path and argument list. -/
structure Env where
  path : Option (List Char)
  dirs : List (List Char × List (List Char))
  exec : List Char → List (List Char) → ExecOut

/-- `fs::read_dir`: the entry names of a directory, or `none` when the
directory cannot be read. -/
def readDir (env : Env) (d : List Char) : Option (List (List Char)) :=
  (env.dirs.find? (fun p => p.1 == d)).map (·.2)

/-- Result of a fallible step of the Rust program: `ok`, a recoverable
`Err(String)` (`err`), or a panic via `expect`/`unwrap` (`fatal`). -/
inductive RRes (α : Type) where
  | ok (a : α)
  | err (msg : List Char)
  | fatal (msg : List Char)
deriving DecidableEq

/-- The `Command` enum of the source. `Type` is a Lean keyword, so that
constructor is named `typeRes`; all carry the same payloads as the source. -/
inductive Command where
  | exit (code : Int)
  | echo (s : List Char)
  | typeRes (s : List Char)
  | run (s : List Char)
deriving DecidableEq

/-- `find_system_command_path`'s scan of one directory's entries: return the
full path (`dir.join(filename)`) of the first entry whose file name equals the
command name. (Rust's `DirEntry::path` joins the directory the scan was given
with the entry's file name; directories here are written without a trailing
slash, so the join is `dir ++ "/" ++ filename`. The `to_str` failure branch of
the source cannot arise in this model, where names are already character
lists.) -/
def scanEntries (dir name : List Char) : List (List Char) → Option (List Char)
  | [] => none
  | f :: fs => if f == name then some (dir ++ '/' :: f) else scanEntries dir name fs

/-- `find_system_command_path`'s loop over the path directories: an unreadable
directory panics (`expect`, → `fatal`), a directory containing the name
returns its path, otherwise the scan continues. -/
def scanDirs (env : Env) (name : List Char) : List (List Char) → RRes (Option (List Char))
  | [] => .ok none
  | d :: ds =>
    match readDir env d with
    | none => .fatal (str "failed to read dir: " ++ d)
    | some entries =>
      match scanEntries d name entries with
      | some p => .ok (some p)
      | none => scanDirs env name ds

/-- `find_system_command_path`: split `PATH` on `:` and scan the directories in
order; a missing `PATH` is the recoverable `Err` of the source. -/
def findSystemCommandPath (env : Env) (name : List Char) : RRes (Option (List Char)) :=
  match env.path with
  | some v => scanDirs env name (splitOnSep ':' v)
  | none => .err (str "failed to get PATH variable to find commands in system folders")

/-- Names of the registry entries in registration order; models
`CommandEnv::names()` over the registry that `init` builds. -/
def registryNames : List (List Char) :=
  [str "exit", str "echo", str "type", str "__r_u_n__"]

/-- The `exit` handler registered by `init`. -/
def commandFnExit (tokens : List (List Char)) (_env : Env) : RRes Command :=
  match tokens with
  | [_, t1] =>
    match parseI32 (trim t1) with
    | some code => .ok (.exit code)
    | none => .err (str "invalid error code")
  | _ => .err (str "invalid exit command: exit <error_code>")

/-- The `echo` handler registered by `init`: rejoin the tokens with single
spaces and strip token 0 as a prefix. (Indexing `tokens[0]` on an empty token
slice would panic in the source; the handler is only ever reached with a
non-empty slice.) -/
def commandFnEcho (tokens : List (List Char)) (_env : Env) : RRes Command :=
  match tokens with
  | [] => .fatal (str "index out of bounds")
  | t0 :: _ =>
    match removeLeading t0 (joinSep ' ' tokens) with
    | some out => .ok (.echo out)
    | none => .err (str "invalid echo command: echo <string>")

/-- The `type` handler registered by `init`: anything but exactly two tokens
is rejected; a trimmed second token matching any registered name (via
`CommandEnv::names()`) reports a shell builtin, else the locator is
consulted. (The source binds `typed_command_name = command_tokens[1].trim()`;
here the trimmed token is written inline.) -/
def commandFnType (tokens : List (List Char)) (env : Env) : RRes Command :=
  match tokens with
  | [_, t1] =>
    if registryNames.any (fun n => n == trim t1) then
      .ok (.typeRes (trim t1 ++ str " is a shell builtin"))
    else
      match findSystemCommandPath env (trim t1) with
      | .ok (some p) => .ok (.typeRes (trim t1 ++ str " is " ++ p))
      | .ok none => .ok (.typeRes (trim t1 ++ str ": not found"))
      | .err _ => .err (str "failed to get PATH variable to find commands in system folders")
      | .fatal m => .fatal m
  | _ => .err (str "invalid type command: type <command>")

/-- The internal `RUN_INTERNAL` handler registered by `init`: locate the
trimmed token 0, spawn it with the remaining tokens, and take stdout on
success, stderr otherwise; decoding an invalid stream panics (`expect`). -/
def commandFnRun (tokens : List (List Char)) (env : Env) : RRes Command :=
  match tokens with
  | [] => .fatal (str "index out of bounds")
  | t0 :: rest =>
    match findSystemCommandPath env (trim t0) with
    | .ok (some p) =>
      match env.exec p rest with
      | .done success so se =>
        if success then
          match so with
          | some s => .ok (.run s)
          | none => .fatal (str "failed to read from program stdout")
        else
          match se with
          | some s => .ok (.run s)
          | none => .fatal (str "failed to read from program stderr")
      | .spawnErr e => .err (str "failed to execute program: " ++ e)
    | .ok none => .ok (.run (trim t0 ++ str ": not found"))
    | .err _ => .err (str "failed to get PATH variable to find commands in system folders")
    | .fatal m => .fatal m

/-- The registry `init` builds, in registration order. -/
def commandEnv : List (List Char × (List (List Char) → Env → RRes Command)) :=
  [(str "exit", commandFnExit), (str "echo", commandFnEcho),
   (str "type", commandFnType), (str "__r_u_n__", commandFnRun)]

/-- The registry's name column is exactly `registryNames` (the knot the Rust
closure captures by borrowing `&CommandEnv`). -/
theorem commandEnv_names : commandEnv.map Prod.fst = registryNames := rfl

/-- `handle_input`'s tokenization: split the raw line on single spaces. -/
def tokenize (input : List Char) : List (List Char) :=
  splitOnSep ' ' input

/-- `handle_input` after tokenization: empty token sequence fails with
"command not specified"; otherwise look token 0 up in the registry and on a
miss fall through to the `RUN_INTERNAL` entry (whose `find`+`unwrap` cannot
fail on the registry `init` builds). -/
def dispatch (tokens : List (List Char)) (env : Env) : RRes Command :=
  match tokens with
  | [] => .err (str "command not specified")
  | t0 :: _ =>
    match commandEnv.find? (fun p => p.1 == t0) with
    | some entry => entry.2 tokens env
    | none =>
      match commandEnv.find? (fun p => p.1 == str "__r_u_n__") with
      | some entry => entry.2 tokens env
      | none => .fatal (str "called Option.unwrap on a None value")

/-- `handle_input` on the raw line (as read by `read_line`, so normally ending
in a newline). -/
def handleInput (input : List Char) (env : Env) : RRes Command :=
  dispatch (tokenize input) env

/-- What one iteration of `main`'s loop does after `handle_input`: print a
line and continue, exit the process, or panic. -/
inductive StepOut where
  | printed (line : List Char)
  | exited (code : Int)
  | aborted (msg : List Char)
deriving DecidableEq

/-- The rendering match of `main`: `Exit` terminates with its code, `Echo`
prints the body trimmed (Rust `trim`, both ends), `Type` and `Run` print the
body verbatim, a handler `Err` prints its description, a panic aborts. -/
def renderResult : RRes Command → StepOut
  | .ok (.exit c) => .exited c
  | .ok (.echo s) => .printed (trim s)
  | .ok (.typeRes s) => .printed s
  | .ok (.run s) => .printed s
  | .err d => .printed d
  | .fatal m => .aborted m

/-- One full iteration of `main`'s loop on a raw input line. -/
def mainStep (input : List Char) (env : Env) : StepOut :=
  renderResult (handleInput input env)

/-! ### Helper lemmas about the string primitives -/

theorem splitOnSep_ne_nil (c : Char) : ∀ l : List Char, splitOnSep c l ≠ []
  | [] => by simp [splitOnSep]
  | x :: xs => by
    simp only [splitOnSep]
    split
    · simp
    · cases h : splitOnSep c xs <;> simp

theorem joinSep_cons_of_ne_nil (c : Char) (a : List Char) (t : List (List Char))
    (ht : t ≠ []) : joinSep c (a :: t) = a ++ c :: joinSep c t := by
  cases t with
  | nil => exact absurd rfl ht
  | cons b t => rfl

/-- Rejoining with the separator inverts splitting on it: Rust's
`split(" ")`-then-`join(" ")` round trip is the identity on the raw line. -/
theorem joinSep_splitOnSep (c : Char) : ∀ l : List Char, joinSep c (splitOnSep c l) = l
  | [] => rfl
  | x :: xs => by
    have ih := joinSep_splitOnSep c xs
    simp only [splitOnSep]
    by_cases hx : x = c
    · rw [if_pos hx, joinSep_cons_of_ne_nil c [] _ (splitOnSep_ne_nil c xs), ih,
        List.nil_append, hx]
    · rw [if_neg hx]
      cases h : splitOnSep c xs with
      | nil => exact absurd h (splitOnSep_ne_nil c xs)
      | cons hd tl =>
        rw [h] at ih
        cases tl with
        | nil => simpa [joinSep] using congrArg (x :: ·) ih
        | cons b tl =>
          have : joinSep c ((x :: hd) :: b :: tl) = x :: joinSep c (hd :: b :: tl) := by
            simp [joinSep]
          rw [this, ih]

theorem splitOnSep_of_not_mem (c : Char) : ∀ l : List Char, c ∉ l → splitOnSep c l = [l]
  | [], _ => rfl
  | x :: xs, h => by
    have hx : ¬x = c := fun e => h (e ▸ List.mem_cons_self x xs)
    have hxs : c ∉ xs := fun m => h (List.mem_cons_of_mem x m)
    simp only [splitOnSep, if_neg hx, splitOnSep_of_not_mem c xs hxs]

theorem splitOnSep_append_sep (c : Char) :
    ∀ d1 d2 : List Char, c ∉ d1 → splitOnSep c (d1 ++ c :: d2) = d1 :: splitOnSep c d2
  | [], d2, _ => by simp [splitOnSep]
  | x :: d1, d2, h => by
    have hx : ¬x = c := fun e => h (e ▸ List.mem_cons_self x d1)
    have hd1 : c ∉ d1 := fun m => h (List.mem_cons_of_mem x m)
    have ih := splitOnSep_append_sep c d1 d2 hd1
    show splitOnSep c (x :: (d1 ++ c :: d2)) = _
    simp only [splitOnSep, if_neg hx, ih]

theorem scanEntries_of_mem (d name : List Char) :
    ∀ es : List (List Char), name ∈ es → scanEntries d name es = some (d ++ '/' :: name)
  | [], h => absurd h (List.not_mem_nil name)
  | f :: fs, h => by
    by_cases hf : f = name
    · simp [scanEntries, hf]
    · have hmem : name ∈ fs := by
        rcases List.mem_cons.mp h with h1 | h1
        · exact absurd h1.symm hf
        · exact h1
      have hb : (f == name) = false := beq_eq_false_iff_ne.mpr hf
      simp only [scanEntries, hb, Bool.false_eq_true, if_false]
      exact scanEntries_of_mem d name fs hmem

theorem removeLeading_append : ∀ p r : List Char, removeLeading p (p ++ r) = some r
  | [], _ => rfl
  | a :: p, r => by simp [removeLeading, removeLeading_append p r]

theorem joinSep_head_append (c : Char) (t0 : List Char) (tr : List (List Char)) :
    ∃ rest, joinSep c (t0 :: tr) = t0 ++ rest := by
  cases tr with
  | nil => exact ⟨[], by simp [joinSep]⟩
  | cons b tr => exact ⟨c :: joinSep c (b :: tr), rfl⟩

/-! ### Concrete environments used by counterexamples and witnesses -/

/-- A small world: `PATH=/bin`, `/bin` holding only `ls`; spawning is never
reached in the scenarios using it. -/
def envBase : Env :=
  { path := some (str "/bin"),
    dirs := [(str "/bin", [str "ls"])],
    exec := fun _ _ => .spawnErr (str "unused") }

/-- A world in which the `PATH` variable is absent. -/
def envNoPath : Env :=
  { path := none, dirs := [], exec := fun _ _ => .spawnErr (str "unused") }

/-- `PATH=/bin`, `/bin` holding `prog`; running `/bin/prog` with no arguments
exits successfully with stdout `"ok\n"` and empty stderr. -/
def envRunOk : Env :=
  { path := some (str "/bin"),
    dirs := [(str "/bin", [str "prog"])],
    exec := fun p args =>
      if p == str "/bin/prog" && args == ([] : List (List Char)) then
        .done true (some (str "ok\n")) (some (str ""))
      else .spawnErr (str "unexpected spawn") }

/-- Like `envRunOk` but `/bin/prog` exits unsuccessfully with stderr
`"bad\n"`. -/
def envRunBad : Env :=
  { path := some (str "/bin"),
    dirs := [(str "/bin", [str "prog"])],
    exec := fun p args =>
      if p == str "/bin/prog" && args == ([] : List (List Char)) then
        .done false (some (str "")) (some (str "bad\n"))
      else .spawnErr (str "unexpected spawn") }

/-- `PATH=/a:/b` with `foo` present in both directories. -/
def envTwoDirs : Env :=
  { path := some (str "/a:/b"),
    dirs := [(str "/a", [str "foo"]), (str "/b", [str "foo"])],
    exec := fun _ _ => .spawnErr (str "unused") }

/-! ### Claims -/

/-- C1: the code at the failing input `type __r_u_n__`. The `type` handler
compares the queried name against all of `CommandEnv::names()`, which
includes the internal `RUN_INTERNAL` sentinel, so `type __r_u_n__` is
reported as a shell builtin in every environment — contradicting the
requirement that the sentinel be excluded from user-visible name listings. -/
theorem c1_type_reports_sentinel_builtin (env : Env) :
    mainStep (str "type __r_u_n__\n") env =
      .printed (str "__r_u_n__ is a shell builtin") ∧
    str "__r_u_n__" ∈ commandEnv.map Prod.fst :=
  ⟨rfl, by decide⟩

/-- C2 (counterexample): a blank input line does not yield the Failure
"command not specified". Tokenizing the blank line gives the single token
`"\n"`, so dispatch falls through to the external-run path, which yields
`": not found"` in a world where no file matches the trimmed empty name. -/
theorem c2_blank_line_dispatched :
    handleInput (str "\n") envBase = .ok (.run (str ": not found")) ∧
    (handleInput (str "\n") envBase == RRes.err (str "command not specified")) = false :=
  ⟨rfl, by decide⟩

/-- C2 (amended): the "command not specified" Failure is produced exactly by
an empty token sequence, but tokenization never produces one — splitting any
line (blank included) on single spaces yields at least one token, so the
branch is unreachable from `main`'s read loop. -/
theorem c2_empty_tokens_failure :
    (∀ env : Env, dispatch [] env = .err (str "command not specified")) ∧
    (∀ input : List Char, 0 < (tokenize input).length) :=
  ⟨fun _ => rfl, fun input => List.length_pos.mpr (splitOnSep_ne_nil ' ' input)⟩

/-- C3 (counterexample): with the search-path variable absent, a lookup from
the `type` builtin and one from the external-run path both print the
recoverable per-line message and the loop continues — the interpreter does
not terminate. -/
theorem c3_missing_path_prints_failure :
    mainStep (str "type ls\n") envNoPath =
      .printed (str "failed to get PATH variable to find commands in system folders") ∧
    mainStep (str "foo\n") envNoPath =
      .printed (str "failed to get PATH variable to find commands in system folders") :=
  ⟨rfl, rfl⟩

/-- C3 (amended): a missing search-path variable is a recoverable per-line
failure, not a fatal one: every lookup returns the `Err` message, and both
the `type` path and the external-run path render it as a printed line
(loop continues), never as a process exit or panic. -/
theorem c3_missing_path_recoverable (env : Env) (h : env.path = none) :
    (∀ name : List Char, findSystemCommandPath env name =
      .err (str "failed to get PATH variable to find commands in system folders")) ∧
    mainStep (str "type ls\n") env =
      .printed (str "failed to get PATH variable to find commands in system folders") ∧
    mainStep (str "foo\n") env =
      .printed (str "failed to get PATH variable to find commands in system folders") := by
  obtain ⟨p, d, e⟩ := env
  have h2 : p = none := h
  subst h2
  exact ⟨fun _ => rfl, rfl, rfl⟩

theorem c3_missing_path_recoverable_witness :
    envNoPath.path = none ∧
    mainStep (str "type ls\n") envNoPath =
      .printed (str "failed to get PATH variable to find commands in system folders") :=
  ⟨rfl, (c3_missing_path_recoverable envNoPath rfl).2.1⟩

/-- Modelled from the spec's words, for comparison in C4 only: "printed with
trailing whitespace trimmed" — remove trailing whitespace and nothing else. -/
def specTrimTrailing (s : List Char) : List Char :=
  (s.reverse.dropWhile Char.isWhitespace).reverse

/-- C4 (counterexample): a successful external program with stdout `"ok\n"`
is printed verbatim as `"ok\n"`, not as the trailing-trimmed `"ok"` the claim
states. -/
theorem c4_run_printed_verbatim :
    mainStep (str "prog\n") envRunOk = .printed (str "ok\n") ∧
    specTrimTrailing (str "ok\n") = str "ok" ∧
    (str "ok\n" == str "ok") = false :=
  ⟨rfl, by decide, by decide⟩

/-- C4 (amended): rendering trims Echo bodies on both ends (Rust `trim`),
prints Type and Run bodies verbatim with no trimming, and prints Failure
descriptions as-is; concretely, stdout `"ok\n"` renders as `"ok\n"`, stderr
`"bad\n"` renders as `"bad\n"`, and `echo  ok ` renders as `"ok"` with its
leading whitespace also removed. -/
theorem c4_rendering :
    (∀ s : List Char, renderResult (.ok (.echo s)) = .printed (trim s)) ∧
    (∀ s : List Char, renderResult (.ok (.typeRes s)) = .printed s) ∧
    (∀ s : List Char, renderResult (.ok (.run s)) = .printed s) ∧
    (∀ m : List Char, renderResult (.err m) = .printed m) ∧
    mainStep (str "prog\n") envRunOk = .printed (str "ok\n") ∧
    mainStep (str "prog\n") envRunBad = .printed (str "bad\n") ∧
    (∀ env : Env, mainStep (str "echo  ok \n") env = .printed (str "ok")) :=
  ⟨fun _ => rfl, fun _ => rfl, fun _ => rfl, fun _ => rfl, rfl, rfl, fun _ => rfl⟩

/-- C5 (counterexample): `__r_u_n__` is not one of the user-visible builtin
names (exit, echo, type), and in `envBase` the locator finds no file named
`__r_u_n__`, yet `type __r_u_n__` answers "is a shell builtin" rather than
the "not found" text the claim requires for a non-builtin name. -/
theorem c5_sentinel_bypasses_locator :
    handleInput (str "type __r_u_n__\n") envBase =
      .ok (.typeRes (str "__r_u_n__ is a shell builtin")) ∧
    findSystemCommandPath envBase (str "__r_u_n__") = .ok none ∧
    (handleInput (str "type __r_u_n__\n") envBase ==
      RRes.ok (.typeRes (str "__r_u_n__: not found"))) = false :=
  ⟨rfl, rfl, by decide⟩

/-- C5 (amended): `type` on each registered builtin name reports "is a shell
builtin" in every environment; for a whitespace-free name **not registered at
all** (so none of exit, echo, type, or the internal sentinel `__r_u_n__`),
`type <name>` with exactly two tokens reports "is <path>" when the locator
finds a path and "<name>: not found" when it finds none. -/
theorem c5_type_contract :
    (∀ env : Env,
      handleInput (str "type exit\n") env = .ok (.typeRes (str "exit is a shell builtin")) ∧
      handleInput (str "type echo\n") env = .ok (.typeRes (str "echo is a shell builtin")) ∧
      handleInput (str "type type\n") env = .ok (.typeRes (str "type is a shell builtin"))) ∧
    (∀ (env : Env) (n p : List Char), trim n = n → n ∉ registryNames →
      findSystemCommandPath env n = .ok (some p) →
      dispatch [str "type", n] env = .ok (.typeRes (n ++ str " is " ++ p))) ∧
    (∀ (env : Env) (n : List Char), trim n = n → n ∉ registryNames →
      findSystemCommandPath env n = .ok none →
      dispatch [str "type", n] env = .ok (.typeRes (n ++ str ": not found"))) := by
  refine ⟨fun env => ⟨rfl, rfl, rfl⟩, ?_, ?_⟩
  · intro env n p ht hn hf
    have hany : ¬(registryNames.any fun m => m == n) = true := by
      simp only [List.any_eq_true, beq_iff_eq]
      rintro ⟨m, hm, rfl⟩
      exact hn hm
    have e : dispatch [str "type", n] env = commandFnType [str "type", n] env := rfl
    rw [e]
    simp only [commandFnType, ht, hf]
    rw [if_neg hany]
  · intro env n ht hn hf
    have hany : ¬(registryNames.any fun m => m == n) = true := by
      simp only [List.any_eq_true, beq_iff_eq]
      rintro ⟨m, hm, rfl⟩
      exact hn hm
    have e : dispatch [str "type", n] env = commandFnType [str "type", n] env := rfl
    rw [e]
    simp only [commandFnType, ht, hf]
    rw [if_neg hany]

theorem c5_type_contract_witness :
    dispatch [str "type", str "ls"] envBase = .ok (.typeRes (str "ls is /bin/ls")) ∧
    dispatch [str "type", str "absent"] envBase = .ok (.typeRes (str "absent: not found")) :=
  ⟨c5_type_contract.2.1 envBase (str "ls") (str "/bin/ls") (by decide) (by decide) rfl,
   c5_type_contract.2.2 envBase (str "absent") (by decide) (by decide) rfl⟩

/-- C6: the locator scans the colon-delimited path directories in order and
returns the first directory's hit: for a path `D1:D2` where both readable
directories contain a file with the exact command name, the result is the
path under `D1`. -/
theorem c6_locator_first_dir_wins (env : Env) (d1 d2 name : List Char)
    (e1 e2 : List (List Char))
    (h1 : ':' ∉ d1) (h2 : ':' ∉ d2)
    (hp : env.path = some (d1 ++ ':' :: d2))
    (hr1 : readDir env d1 = some e1) (hm1 : name ∈ e1)
    (hr2 : readDir env d2 = some e2) (hm2 : name ∈ e2) :
    findSystemCommandPath env name = .ok (some (d1 ++ '/' :: name)) := by
  have hsplit := splitOnSep_append_sep ':' d1 d2 h1
  simp only [findSystemCommandPath, hp, hsplit, scanDirs, hr1,
    scanEntries_of_mem d1 name e1 hm1]

theorem c6_locator_first_dir_wins_witness :
    findSystemCommandPath envTwoDirs (str "foo") = .ok (some (str "/a/foo")) :=
  c6_locator_first_dir_wins envTwoDirs (str "/a") (str "/b") (str "foo")
    [str "foo"] [str "foo"] (by decide) (by decide) rfl rfl
    (by decide) rfl (by decide)

/-- C7: the external invoker's output policy: when the locator resolves the
(trimmed) token 0 to a path, a successful child's captured stdout becomes the
Run body and an unsuccessful child's captured stderr does; when the locator
finds no match, the body is exactly "<name>: not found". -/
theorem c7_invoker_output_policy (env : Env) (t0 : List Char)
    (rest : List (List Char)) (ht : trim t0 = t0) :
    (∀ (p so : List Char) (se : Option (List Char)),
      findSystemCommandPath env t0 = .ok (some p) →
      env.exec p rest = .done true (some so) se →
      commandFnRun (t0 :: rest) env = .ok (.run so)) ∧
    (∀ (p se : List Char) (so : Option (List Char)),
      findSystemCommandPath env t0 = .ok (some p) →
      env.exec p rest = .done false so (some se) →
      commandFnRun (t0 :: rest) env = .ok (.run se)) ∧
    (findSystemCommandPath env t0 = .ok none →
      commandFnRun (t0 :: rest) env = .ok (.run (t0 ++ str ": not found"))) := by
  refine ⟨?_, ?_, ?_⟩
  · intro p so se hf he
    simp [commandFnRun, ht, hf, he]
  · intro p se so hf he
    simp [commandFnRun, ht, hf, he]
  · intro hf
    simp only [commandFnRun, ht, hf]

theorem c7_invoker_output_policy_witness :
    commandFnRun [str "prog"] envRunOk = .ok (.run (str "ok\n")) ∧
    commandFnRun [str "prog"] envRunBad = .ok (.run (str "bad\n")) ∧
    commandFnRun [str "absent"] envBase = .ok (.run (str "absent: not found")) :=
  ⟨(c7_invoker_output_policy envRunOk (str "prog") [] (by decide)).1
      (str "/bin/prog") (str "ok\n") (some (str "")) rfl rfl,
   (c7_invoker_output_policy envRunBad (str "prog") [] (by decide)).2.1
      (str "/bin/prog") (str "bad\n") (some (str "")) rfl rfl,
   (c7_invoker_output_policy envBase (str "absent") [] (by decide)).2.2 rfl⟩

/-- C8: the `exit` handler's contract: exactly two tokens whose (trimmed)
second token parses as an integer n yield Terminate(n); an unparseable code
yields the Failure "invalid error code"; any other arity yields the usage
Failure — in both failure cases the result is an `err`, never a Terminate. -/
theorem c8_exit_contract :
    (∀ (env : Env) (t1 : List Char) (n : Int), parseI32 (trim t1) = some n →
      dispatch [str "exit", t1] env = .ok (.exit n)) ∧
    (∀ (env : Env) (t1 : List Char), parseI32 (trim t1) = none →
      dispatch [str "exit", t1] env = .err (str "invalid error code")) ∧
    (∀ (env : Env) (ts : List (List Char)), ts.length ≠ 1 →
      dispatch (str "exit" :: ts) env = .err (str "invalid exit command: exit <error_code>")) := by
  refine ⟨?_, ?_, ?_⟩
  · intro env t1 n hp
    have e : dispatch [str "exit", t1] env = commandFnExit [str "exit", t1] env := rfl
    rw [e]
    simp only [commandFnExit, hp]
  · intro env t1 hp
    have e : dispatch [str "exit", t1] env = commandFnExit [str "exit", t1] env := rfl
    rw [e]
    simp only [commandFnExit, hp]
  · intro env ts h
    have e : dispatch (str "exit" :: ts) env = commandFnExit (str "exit" :: ts) env := rfl
    rw [e]
    match ts with
    | [] => rfl
    | [a] => exact absurd rfl h
    | a :: b :: ts => rfl

theorem c8_exit_contract_witness :
    dispatch [str "exit", str "42\n"] envBase = .ok (.exit 42) ∧
    dispatch [str "exit", str "x"] envBase = .err (str "invalid error code") ∧
    dispatch [str "exit"] envBase = .err (str "invalid exit command: exit <error_code>") :=
  ⟨c8_exit_contract.1 envBase (str "42\n") 42 (by decide),
   c8_exit_contract.2.1 envBase (str "x") (by decide),
   c8_exit_contract.2.2 envBase [] (by decide)⟩

/-- C9: echo is raw-text passthrough: rejoining the space-split tokens with
single spaces is the identity on the raw line, so the Echo body is the raw
input line with the leading 4-character command-name token stripped; for
`echo a  b` the double interior space survives into the printed output. -/
theorem c9_echo_raw_passthrough :
    (∀ l : List Char, joinSep ' ' (splitOnSep ' ' l) = l) ∧
    (∀ (env : Env) (l : List Char), (tokenize l).headD [] = str "echo" →
      dispatch (tokenize l) env = .ok (.echo (l.drop 4))) ∧
    (∀ env : Env, mainStep (str "echo a  b\n") env = .printed (str "a  b")) := by
  refine ⟨joinSep_splitOnSep ' ', ?_, fun _ => rfl⟩
  intro env l h
  cases htok : tokenize l with
  | nil => exact absurd htok (splitOnSep_ne_nil ' ' l)
  | cons t0 tr =>
    rw [htok] at h
    have ht0 : t0 = str "echo" := h
    subst ht0
    have hjoin : joinSep ' ' (str "echo" :: tr) = l := by
      rw [← htok]
      exact joinSep_splitOnSep ' ' l
    obtain ⟨rest, hrest⟩ := joinSep_head_append ' ' (str "echo") tr
    have hl : l = str "echo" ++ rest := by rw [← hjoin, hrest]
    have hrm : removeLeading (str "echo") (joinSep ' ' (str "echo" :: tr)) = some rest := by
      rw [hrest]
      exact removeLeading_append _ _
    have hdrop : l.drop 4 = rest := by
      have h4 : (str "echo").length = 4 := rfl
      rw [hl, ← h4]
      exact List.drop_left _ _
    have e : dispatch (str "echo" :: tr) env = commandFnEcho (str "echo" :: tr) env := rfl
    rw [e]
    simp only [commandFnEcho, hrm, hdrop]

theorem c9_echo_raw_passthrough_witness :
    dispatch (tokenize (str "echo a  b\n")) envBase = .ok (.echo (str " a  b\n")) :=
  c9_echo_raw_passthrough.2.1 envBase (str "echo a  b\n") (by decide)

/-- C10: the echo handler's Failure branch is unreachable: token 0 is always
a prefix of the space-rejoined token sequence, so prefix stripping succeeds
and echo yields an Echo outcome for every non-empty token sequence — and
tokenization only ever produces non-empty token sequences. -/
theorem c10_echo_failure_unreachable :
    (∀ (t0 : List Char) (tr : List (List Char)),
      ∃ s, removeLeading t0 (joinSep ' ' (t0 :: tr)) = some s) ∧
    (∀ (env : Env) (t0 : List Char) (tr : List (List Char)),
      ∃ s, commandFnEcho (t0 :: tr) env = .ok (.echo s)) ∧
    (∀ l : List Char, 0 < (tokenize l).length) := by
  refine ⟨?_, ?_, fun l => List.length_pos.mpr (splitOnSep_ne_nil ' ' l)⟩
  · intro t0 tr
    obtain ⟨rest, hrest⟩ := joinSep_head_append ' ' t0 tr
    exact ⟨rest, by rw [hrest, removeLeading_append]⟩
  · intro env t0 tr
    obtain ⟨rest, hrest⟩ := joinSep_head_append ' ' t0 tr
    refine ⟨rest, ?_⟩
    simp only [commandFnEcho, hrest, removeLeading_append]

end Shell
